import Mathlib

/-!
Shallow embedding of `scripts/delete_training_data_utils.js` (medic-webapp
training-data deletion utilities).

Modelling choices, function by function against the source:

* A store document is a record with the fields the script touches:
  `_id`, `type`, `reported_date`, `contact`, `_deleted`.  Absent JS fields
  are `none`.  JS numbers are `Int` (the script only compares timestamps).
* The external world (PouchDB handle plus the ambient `fs` module) is a
  `Db` record of oracles: the `medic/facilities_by_contact` view, the
  `bulkDocs` call, and whether an `fs.writeFile` at a given path succeeds.
* Every effectful function returns its JS resolution value as
  `Except String _` (a rejected promise is `.error`) paired with the list
  of observable events it emits, in order: store queries, store bulk
  writes, file writes, and `console.log` lines.  Promise chaining
  (`.then`) is sequencing of those pairs; `.catch(log; throw)` appends its
  log events and re-raises.  This trace makes the temporal claims
  (audit-before-mutate, strict sequencing, fail-fast) statable.
* In-place JS mutation (`delete facility.contact` inside `removeContact`,
  `doc._deleted = true` inside `deleteDocs`) is modelled by returning the
  mutated objects: `removeContact` returns the facilities list it mutated
  alongside its resolution value, mirroring that the caller's objects are
  changed even when the dry-run branch skips the store write.
-/

/-- A document of the store, restricted to the fields the script reads or
writes; every other JS field is opaque payload irrelevant to the claims. -/
structure Doc where
  _id : String := ""
  type : Option String := none
  reported_date : Option Int := none
  contact : Option String := none
  _deleted : Option Bool := none
deriving DecidableEq, Repr

/-- A row of a CouchDB view query result: `{id, doc}` (with
`include_docs: true`). -/
structure Row where
  id : String
  doc : Doc
deriving DecidableEq, Repr

/-- An observable effect emitted by the script, in program order. -/
inductive Event where
  | storeQuery (view : String) (key : String)
  | bulkWrite (docs : List Doc)
  | fileWrite (path : String) (docs : List Doc)
  | log (msg : String)
deriving DecidableEq, Repr

/-- The external collaborators: the database handle (`db.query` on the
`medic/facilities_by_contact` view, `db.bulkDocs`) and the ambient
filesystem (`fs.writeFile` succeeding or failing at a path).  Each oracle
may fail, modelling a rejected promise / errored callback. -/
structure Db where
  facilitiesByContact : String → Except String (List Row)
  bulkDocs : List Doc → Except String (List String)
  fsWriteOk : String → Bool

/-- Source `getDocsFromRows`: `_.map(rows, row => row.doc)`. -/
def getDocsFromRows (rows : List Row) : List Doc :=
  rows.map (fun row => row.doc)

/-- Source `getIdsFromRows`: `_.map(rows, row => row.id)`. -/
def getIdsFromRows (rows : List Row) : List String :=
  rows.map (fun row => row.id)

/-- The in-place loop `_.each(docs, doc => { doc._deleted = true })`
applied to one document. -/
def setDeleted (doc : Doc) : Doc :=
  { doc with _deleted := some true }

/-- Source `deleteDocs(dryrun, db, docs)`.  Dry-run: log and resolve with
`docs` unchanged, no store call.  Otherwise mark every doc `_deleted:
true` and `db.bulkDocs` the marked list; on success the promise resolves
with the bulkDocs result array (statuses), not the docs. -/
def deleteDocs (dryrun : Bool) (db : Db) (docs : List Doc) :
    Except String (Sum (List Doc) (List String)) × List Event :=
  if dryrun then
    (.ok (.inl docs), [.log "Dryrun : not deleting."])
  else
    let docsWithDeleteField := docs.map setDeleted
    match db.bulkDocs docsWithDeleteField with
    | .ok result =>
        (.ok (.inr result),
         [.bulkWrite docsWithDeleteField,
          .log ("Deleted : " ++ toString result.length ++ ":")])
    | .error err => (.error err, [.bulkWrite docsWithDeleteField])

/-- Source `filterByDate(docsList, startTimestamp, endTimestamp)`: keeps
docs passing `doc.reported_date && doc.reported_date >= startTimestamp &&
doc.reported_date < endTimestamp`.  JS truthiness of the first conjunct:
an absent field or a `0` timestamp is falsy, so both are filtered out. -/
def filterByDate (docsList : List Doc) (startTimestamp endTimestamp : Int) :
    List Doc :=
  docsList.filter (fun doc =>
    match doc.reported_date with
    | none => false
    | some d => decide (d ≠ 0) && decide (startTimestamp ≤ d) && decide (d < endTimestamp))

/-- Source `filterByType(docsList, type)`: keeps docs with
`doc.type === type`. -/
def filterByType (docsList : List Doc) (t : String) : List Doc :=
  docsList.filter (fun doc => doc.type = some t)

/-- Source `isContactFor(db, personId)`: query the
`medic/facilities_by_contact` view; log the count when positive; resolve
with the row docs.  On a query error, log context and re-raise. -/
def isContactFor (db : Db) (personId : String) :
    Except String (List Doc) × List Event :=
  let q : Event := .storeQuery "medic/facilities_by_contact" personId
  match db.facilitiesByContact personId with
  | .ok rows =>
      if rows.length > 0 then
        (.ok (getDocsFromRows rows),
         [q, .log ("Person " ++ personId ++ " is contact for " ++
                   toString rows.length ++ " facilities")])
      else
        (.ok (getDocsFromRows rows), [q])
  | .error err =>
      (.error err, [q, .log ("Error in isContactFor " ++ personId), .log err])

/-- The in-place loop `_.each(facilitiesList, facility => delete
facility.contact)`: every facility object loses its `contact` field. -/
def stripContact (facilitiesList : List Doc) : List Doc :=
  facilitiesList.map (fun facility => { facility with contact := none })

/-- Source `removeContact(db, dryrun, person, facilitiesList)`.  The
`contact` field is deleted from every facility object first (in-place
mutation, returned here as the middle component).  Then: dry-run logs and
resolves with `person` without a store call; otherwise `db.bulkDocs` the
mutated facilities and resolve with `person`. -/
def removeContact (db : Db) (dryrun : Bool) (person : Doc)
    (facilitiesList : List Doc) :
    Except String Doc × List Doc × List Event :=
  let mutated := stripContact facilitiesList
  if dryrun then
    (.ok person, mutated, [.log "Dryrun : not removing contact links."])
  else
    match db.bulkDocs mutated with
    | .ok _result =>
        (.ok person, mutated,
         [.bulkWrite mutated,
          .log ("Removed contact " ++ person._id ++ " from " ++
                toString mutated.length ++ " facilities")])
    | .error err => (.error err, mutated, [.bulkWrite mutated])

/-- Source `writeDocsToFile(filepath, docsList)`: an empty list returns
immediately without touching the filesystem; otherwise `fs.writeFile` the
serialized list, rejecting with a message naming the path on failure and
resolving with the list (after logging) on success.  `fs` is the success
oracle for the ambient filesystem. -/
def writeDocsToFile (fs : String → Bool) (filepath : String)
    (docsList : List Doc) : Except String (List Doc) × List Event :=
  if docsList.length = 0 then
    (.ok docsList, [])
  else if fs filepath then
    (.ok docsList,
     [.fileWrite filepath docsList,
      .log ("Wrote " ++ toString docsList.length ++ " docs to file " ++ filepath)])
  else
    (.error ("Couldnt write to file" ++ filepath), [])

/-- The audit snapshot path `<logdir>/cleaned_facilities_<personId>.json`
used by `cleanContactPerson`. -/
def snapshotPath (logdir personId : String) : String :=
  logdir ++ "/cleaned_facilities_" ++ personId ++ ".json"

/-- Source `cleanContactPerson(db, dryrun, logdir, person)`:
`isContactFor` → if no referencing facility, resolve (with `undefined`,
here `none`) → `writeDocsToFile` the pre-mutation facilities →
`removeContact`.  The surrounding `.catch` logs the failing subject's id
and the error, then re-raises. -/
def cleanContactPerson (db : Db) (dryrun : Bool) (logdir : String)
    (person : Doc) : Except String (Option Doc) × List Event :=
  let catchLogs : String → List Event := fun err =>
    [.log ("Error when removing contact " ++ person._id), .log err]
  match isContactFor db person._id with
  | (.error err, tr) => (.error err, tr ++ catchLogs err)
  | (.ok facilities, tr) =>
      if facilities.length = 0 then
        (.ok none, tr)
      else
        match writeDocsToFile db.fsWriteOk
            (snapshotPath logdir person._id) facilities with
        | (.error err, tr2) => (.error err, tr ++ tr2 ++ catchLogs err)
        | (.ok written, tr2) =>
            match removeContact db dryrun person written with
            | (.ok p, _mutated, tr3) => (.ok (some p), tr ++ tr2 ++ tr3)
            | (.error err, _mutated, tr3) =>
                (.error err, tr ++ tr2 ++ tr3 ++ catchLogs err)

/-- The promise chain `promise = promise.then(() => cleanContactPerson(...))`
folded over the persons list: each subject runs only after the previous
one resolved; the first rejection stops the chain. -/
def runQueue (db : Db) (dryrun : Bool) (logdir : String) :
    List Doc → Except String Unit × List Event
  | [] => (.ok (), [])
  | person :: rest =>
      match cleanContactPerson db dryrun logdir person with
      | (.ok _, tr) =>
          match runQueue db dryrun logdir rest with
          | (r, tr2) => (r, tr ++ tr2)
      | (.error err, tr) => (.error err, tr)

/-- Source `cleanContactPersons(db, dryrun, logdir, personsList)`: the
sequential chain over the list, resolving with the original `personsList`
when every subject succeeded. -/
def cleanContactPersons (db : Db) (dryrun : Bool) (logdir : String)
    (personsList : List Doc) : Except String (List Doc) × List Event :=
  match runQueue db dryrun logdir personsList with
  | (.ok _, tr) => (.ok personsList, tr)
  | (.error err, tr) => (.error err, tr)

/-- The bulk-write payloads of a trace, in order. -/
def bulkWrites : List Event → List (List Doc)
  | [] => []
  | .bulkWrite ds :: tr => ds :: bulkWrites tr
  | _ :: tr => bulkWrites tr

/-- The file-write events of a trace, in order. -/
def fileWrites : List Event → List (String × List Doc)
  | [] => []
  | .fileWrite p ds :: tr => (p, ds) :: fileWrites tr
  | _ :: tr => fileWrites tr

/-- Whether an event mutates durable state (store or filesystem). -/
def Event.isWriteEffect : Event → Bool
  | .bulkWrite _ => true
  | .fileWrite _ _ => true
  | _ => false

/-- The `prompt` property validator `/y[es]*|n[o]?/` tested unanchored
against the response line: it matches exactly when the line contains a
`y` (head of `y[es]*`) or an `n` (head of `n[o]?`). -/
def yesnoValidator (line : String) : Bool :=
  line.toList.any (fun c => c = 'y' || c = 'n')

/-- The outcome of one prompt exchange as handed to `userConfirm`'s
`prompt.get` callback: the input channel errored, or a validated
response line was read. -/
inductive PromptInput where
  | channelErr (e : String)
  | answer (line : String)
deriving DecidableEq, Repr

/-- What the `userConfirm` callback does with the exchange: call
`process.exit()` or resolve the promise. -/
inductive ConfirmAction where
  | exitProcess
  | resolveOk
deriving DecidableEq, Repr

/-- The prompt library's `default: 'yes'`: a blank response line is
replaced by the default before reaching the callback. -/
def promptDefault (line : String) : String :=
  if line = "" then "yes" else line

/-- Source `userConfirm(message)` callback: on a channel error, log and
`process.exit()`; when `result.yesno !== 'yes'`, log `User backed out.`
and `process.exit()`; otherwise resolve. -/
def userConfirm : PromptInput → ConfirmAction
  | .channelErr _ => .exitProcess
  | .answer line =>
      if promptDefault line ≠ "yes" then .exitProcess else .resolveOk

/-- Sample person P1 of the spec scenario. -/
def pP1 : Doc := { _id := "P1", type := some "person" }

/-- Sample person P2 of the spec scenario. -/
def pP2 : Doc := { _id := "P2", type := some "person" }

/-- Sample person P3, referenced by no facility. -/
def pP3 : Doc := { _id := "P3", type := some "person" }

/-- Sample facility F1 with contact P1. -/
def fF1 : Doc := { _id := "F1", type := some "facility", contact := some "P1" }

/-- Sample facility F2 with contact P1. -/
def fF2 : Doc := { _id := "F2", type := some "facility", contact := some "P1" }

/-- Sample facility F3 with contact P2. -/
def fF3 : Doc := { _id := "F3", type := some "facility", contact := some "P2" }

/-- A healthy store for the spec scenario: F1 and F2 reference P1, F3
references P2, nothing references P3; writes all succeed. -/
def sampleDb : Db where
  facilitiesByContact := fun personId =>
    if personId = "P1" then .ok [⟨"F1", fF1⟩, ⟨"F2", fF2⟩]
    else if personId = "P2" then .ok [⟨"F3", fF3⟩]
    else .ok []
  bulkDocs := fun docs => .ok (docs.map (fun d => d._id))
  fsWriteOk := fun _ => true

/-- A store whose reference lookup fails for P2 and behaves like
`sampleDb` elsewhere. -/
def failingDb : Db where
  facilitiesByContact := fun personId =>
    if personId = "P2" then .error "boom"
    else if personId = "P1" then .ok [⟨"F1", fF1⟩, ⟨"F2", fF2⟩]
    else .ok []
  bulkDocs := fun docs => .ok (docs.map (fun d => d._id))
  fsWriteOk := fun _ => true

/-- A data record whose reported_date is the epoch timestamp 0. -/
def docZero : Doc :=
  { _id := "d0", type := some "data_record", reported_date := some 0 }

/-- Every facility coming out of the contact-stripping loop has no
`contact` field. -/
theorem stripContact_contact_none (l : List Doc) :
    ∀ f ∈ stripContact l, f.contact = none := by
  intro f hf
  rw [stripContact, List.mem_map] at hf
  obtain ⟨x, _, rfl⟩ := hf
  rfl

/-- C1: with dry-run off, the single store write of `deleteDocs` carries
every input document marked `_deleted = true` (one marked copy per input
document, a soft delete, never a physical erasure); with dry-run on, no
store write is issued and the resolved list is the input list itself. -/
theorem deleteDocs_soft_delete (db : Db) (docs : List Doc) :
    deleteDocs true db docs = (.ok (.inl docs), [.log "Dryrun : not deleting."]) ∧
    bulkWrites (deleteDocs true db docs).2 = [] ∧
    bulkWrites (deleteDocs false db docs).2 = [docs.map setDeleted] ∧
    (docs.map setDeleted).length = docs.length ∧
    (∀ d ∈ docs.map setDeleted, d._deleted = some true) := by
  refine ⟨rfl, rfl, ?_, by simp, ?_⟩
  · unfold deleteDocs
    cases hbd : db.bulkDocs (docs.map setDeleted) <;> simp [hbd, bulkWrites]
  · intro d hd
    rw [List.mem_map] at hd
    obtain ⟨x, _, rfl⟩ := hd
    rfl

/-- C6 counterexample: a document whose `reported_date` equals the lower
bound `t0 = 0` of the requested range `[0, 1)` is excluded by
`filterByDate`, because the JS truthiness test `doc.reported_date &&`
rejects the number 0; the claim as stated requires it to be included. -/
theorem filterByDate_zero_boundary_cex :
    docZero.reported_date = some 0 ∧ ((0:Int) ≤ 0 ∧ (0:Int) < 1) ∧
    filterByDate [docZero] 0 1 = [] :=
  ⟨rfl, ⟨by decide, by decide⟩, rfl⟩

/-- C6 amended: `filterByDate docs t0 t1` keeps exactly the documents
whose `reported_date` is present, nonzero, and lies in the half-open
interval `[t0, t1)`; in particular a document with a nonzero
`reported_date == t0` is included, one with `reported_date == t1` is
excluded, and one with no `reported_date` is excluded. -/
theorem filterByDate_mem_iff (docsList : List Doc) (t0 t1 : Int) (doc : Doc) :
    doc ∈ filterByDate docsList t0 t1 ↔
      doc ∈ docsList ∧
        ∃ d, doc.reported_date = some d ∧ d ≠ 0 ∧ t0 ≤ d ∧ d < t1 := by
  unfold filterByDate
  rw [List.mem_filter]
  constructor
  · rintro ⟨hmem, hp⟩
    refine ⟨hmem, ?_⟩
    cases h : doc.reported_date with
    | none => rw [h] at hp; simp at hp
    | some d =>
        rw [h] at hp
        simp at hp
        obtain ⟨⟨h1, h2⟩, h3⟩ := hp
        exact ⟨d, rfl, h1, h2, h3⟩
  · rintro ⟨hmem, d, hd, h0, hle, hlt⟩
    refine ⟨hmem, ?_⟩
    rw [hd]
    simp [h0, hle, hlt]

/-- C9: a document whose `reported_date` is the number 0 is excluded by
`filterByDate` even when the requested range contains 0: the JS guard
`doc.reported_date &&` treats a 0 timestamp exactly like an absent
field. -/
theorem filterByDate_excludes_zero (docsList : List Doc) (t0 t1 : Int)
    (doc : Doc) (h0 : doc.reported_date = some 0) (hle : t0 ≤ 0)
    (hlt : (0:Int) < t1) : doc ∉ filterByDate docsList t0 t1 := by
  intro hmem
  rw [filterByDate, List.mem_filter, h0] at hmem
  simp at hmem

/-- C9 witness: the concrete zero-dated record is excluded from the range
`[-1, 5)` that contains 0. -/
theorem filterByDate_excludes_zero_witness :
    docZero ∉ filterByDate [docZero] (-1) 5 :=
  filterByDate_excludes_zero [docZero] (-1) 5 docZero rfl (by decide) (by decide)

/-- C7: `removeContact` clears the `contact` reference of every facility
in its input list (the mutated list, and hence every document handed to
the bulk-write, has no `contact` field), and the operation resolves with
the person, both under dry-run and when the bulk-write succeeds. -/
theorem removeContact_clears_contact (db : Db) (dryrun : Bool)
    (person : Doc) (facilitiesList : List Doc) :
    (removeContact db dryrun person facilitiesList).2.1 = stripContact facilitiesList ∧
    (∀ f ∈ (removeContact db dryrun person facilitiesList).2.1, f.contact = none) ∧
    (∀ ds ∈ bulkWrites (removeContact db dryrun person facilitiesList).2.2,
        ds = stripContact facilitiesList ∧ ∀ f ∈ ds, f.contact = none) ∧
    (dryrun = true → (removeContact db dryrun person facilitiesList).1 = .ok person) ∧
    (∀ res, db.bulkDocs (stripContact facilitiesList) = .ok res →
        (removeContact db dryrun person facilitiesList).1 = .ok person) := by
  unfold removeContact
  cases dryrun with
  | true =>
      refine ⟨rfl, stripContact_contact_none _, ?_, fun _ => rfl, fun _ _ => rfl⟩
      intro ds hds
      simp [bulkWrites] at hds
  | false =>
      cases hbd : db.bulkDocs (stripContact facilitiesList) with
      | ok res =>
          refine ⟨by simp [hbd], by simp [hbd]; exact stripContact_contact_none _, ?_, by simp, ?_⟩
          · intro ds hds
            simp [hbd, bulkWrites] at hds
            subst hds
            exact ⟨rfl, stripContact_contact_none _⟩
          · intro res2 _
            simp [hbd]
      | error err =>
          refine ⟨by simp [hbd], by simp [hbd]; exact stripContact_contact_none _, ?_, by simp, ?_⟩
          · intro ds hds
            simp [hbd, bulkWrites] at hds
            subst hds
            exact ⟨rfl, stripContact_contact_none _⟩
          · intro res2 hres2
            simp at hres2

/-- C10: the contact-stripping mutation of `removeContact` happens before
the dry-run branch is consulted, so the caller's facility objects are
mutated (contact removed) for either value of the flag; under dry-run
only the store write is suppressed. -/
theorem removeContact_mutates_under_dryrun (db : Db) (person : Doc)
    (facilitiesList : List Doc) :
    (∀ b : Bool, (removeContact db b person facilitiesList).2.1 =
        stripContact facilitiesList) ∧
    (∀ f ∈ (removeContact db true person facilitiesList).2.1, f.contact = none) ∧
    bulkWrites (removeContact db true person facilitiesList).2.2 = [] := by
  refine ⟨?_, stripContact_contact_none _, rfl⟩
  intro b
  cases b with
  | true => rfl
  | false =>
      unfold removeContact
      cases hbd : db.bulkDocs (stripContact facilitiesList) <;> simp [hbd]

/-- C8 counterexample: `y` passes the prompt validator (it is an accepted
abbreviation of yes) yet the callback compares `result.yesno !== 'yes'`
against the exact string, so answering `y` terminates the process instead
of resolving. -/
theorem userConfirm_y_exits_cex :
    yesnoValidator "y" = true ∧ userConfirm (.answer "y") = .exitProcess :=
  ⟨by decide, by decide⟩

/-- C8 amended: the validator accepts yes/no and their abbreviations and
a blank answer defaults to yes, but only the exact answer `yes` (typed or
defaulted) resolves normally; every other validated answer - including
affirmative abbreviations such as `y` - and every input-channel error
terminates the process. -/
theorem userConfirm_exact_yes_only :
    userConfirm (.answer "") = .resolveOk ∧
    userConfirm (.answer "yes") = .resolveOk ∧
    userConfirm (.answer "no") = .exitProcess ∧
    userConfirm (.answer "n") = .exitProcess ∧
    (∀ e, userConfirm (.channelErr e) = .exitProcess) ∧
    (∀ line, userConfirm (.answer line) = .resolveOk ↔ (line = "" ∨ line = "yes")) ∧
    yesnoValidator "yes" = true ∧ yesnoValidator "no" = true ∧
    yesnoValidator "y" = true ∧ yesnoValidator "n" = true := by
  refine ⟨by decide, by decide, by decide, by decide, fun e => rfl, ?_,
    by decide, by decide, by decide, by decide⟩
  intro line
  unfold userConfirm promptDefault
  by_cases hb : line = ""
  · subst hb; simp
  · simp only [hb, if_false]
    by_cases hy : line = "yes"
    · subst hy; simp
    · simp [hy]

/-- C5: snapshotting an empty document list performs no filesystem write
and returns the list, and the cascade for a person with zero referencing
facilities emits no file write and no store write (it is a no-op beyond
the view read). -/
theorem emptySnapshot_noop (fs : String → Bool) (path : String) (db : Db)
    (dryrun : Bool) (logdir : String) (person : Doc)
    (h : db.facilitiesByContact person._id = .ok []) :
    writeDocsToFile fs path [] = (.ok [], []) ∧
    (∀ e ∈ (cleanContactPerson db dryrun logdir person).2,
        e.isWriteEffect = false) := by
  refine ⟨rfl, ?_⟩
  intro e he
  rw [cleanContactPerson] at he
  rw [isContactFor, h] at he
  simp [getDocsFromRows] at he
  subst he
  rfl

/-- C5 witness: the cascade on person P3, whom no facility references,
touches neither the store nor the filesystem. -/
theorem emptySnapshot_noop_witness :
    writeDocsToFile (fun _ => true) "x" [] = (.ok [], []) ∧
    (∀ e ∈ (cleanContactPerson sampleDb false "log" pP3).2,
        e.isWriteEffect = false) :=
  emptySnapshot_noop (fun _ => true) "x" sampleDb false "log" pP3 rfl

/-- C3: the promise chain of `cleanContactPersons` processes subjects
strictly sequentially: the emitted trace is the concatenation, in list
order, of each subject's full cascade trace (so subject i's resolve,
audit, strip and commit events all precede every event of subject i+1,
with no interleaving), and when every subject succeeds the operation
resolves with the original persons list. -/
theorem cleanContactPersons_sequential (db : Db) (dryrun : Bool)
    (logdir : String) (personsList : List Doc)
    (h : ∀ p ∈ personsList,
        ∃ v tr, cleanContactPerson db dryrun logdir p = (.ok v, tr)) :
    cleanContactPersons db dryrun logdir personsList =
      (.ok personsList,
       (personsList.map
          (fun p => (cleanContactPerson db dryrun logdir p).2)).flatten) := by
  have key : ∀ l : List Doc,
      (∀ p ∈ l, ∃ v tr, cleanContactPerson db dryrun logdir p = (.ok v, tr)) →
      runQueue db dryrun logdir l =
        (.ok (),
         (l.map (fun p => (cleanContactPerson db dryrun logdir p).2)).flatten) := by
    intro l
    induction l with
    | nil => intro _; rfl
    | cons p rest ih =>
        intro hl
        obtain ⟨v, tr, hp⟩ := hl p (List.mem_cons_self p rest)
        have hrest := ih (fun q hq => hl q (List.mem_cons_of_mem p hq))
        simp [runQueue, hp, hrest]
  rw [cleanContactPersons, key personsList h]

/-- C3 witness: the scenario run on persons P1 and P2 against the healthy
store resolves with the input list and emits P1's whole trace before
P2's. -/
theorem cleanContactPersons_sequential_witness :
    cleanContactPersons sampleDb false "log" [pP1, pP2] =
      (.ok [pP1, pP2],
       ([pP1, pP2].map
          (fun p => (cleanContactPerson sampleDb false "log" p).2)).flatten) :=
  cleanContactPersons_sequential sampleDb false "log" [pP1, pP2] (by
    intro p hp
    rcases List.mem_cons.mp hp with h1 | h1
    · subst h1; exact ⟨_, _, rfl⟩
    rcases List.mem_cons.mp h1 with h2 | h2
    · subst h2; exact ⟨_, _, rfl⟩
    · simp at h2)

/-- C4: when the cascade of some subject fails (reference lookup, audit
write, or store bulk-write), `cleanContactPersons` re-raises that error
and its whole trace is the successful predecessors' traces followed by
the failing subject's trace: the error is never swallowed, the failing
subject's identifier is logged, and no subsequent subject is
processed. -/
theorem cleanContactPersons_failFast (db : Db) (dryrun : Bool)
    (logdir : String) (done : List Doc) (p : Doc) (rest : List Doc)
    (e : String) (tr : List Event)
    (hdone : ∀ q ∈ done,
        ∃ v trq, cleanContactPerson db dryrun logdir q = (.ok v, trq))
    (hp : cleanContactPerson db dryrun logdir p = (.error e, tr)) :
    cleanContactPersons db dryrun logdir (done ++ p :: rest) =
      (.error e,
       (done.map (fun q => (cleanContactPerson db dryrun logdir q).2)).flatten
         ++ tr) ∧
    Event.log ("Error when removing contact " ++ p._id) ∈ tr := by
  constructor
  · have key : ∀ l : List Doc,
        (∀ q ∈ l, ∃ v trq, cleanContactPerson db dryrun logdir q = (.ok v, trq)) →
        runQueue db dryrun logdir (l ++ p :: rest) =
          (.error e,
           (l.map (fun q => (cleanContactPerson db dryrun logdir q).2)).flatten
             ++ tr) := by
      intro l
      induction l with
      | nil => intro _; simp [runQueue, hp]
      | cons q l2 ih =>
          intro hl
          obtain ⟨v, trq, hq⟩ := hl q (List.mem_cons_self q l2)
          have h2 := ih (fun r hr => hl r (List.mem_cons_of_mem q hr))
          simp [runQueue, hq, h2]
    rw [cleanContactPersons, key done hdone]
  · rw [cleanContactPerson] at hp
    rcases hI : isContactFor db p._id with ⟨r0, t0⟩
    rw [hI] at hp
    cases r0 with
    | error err =>
        simp at hp
        rw [← hp.2]
        simp
    | ok facilities =>
        simp at hp
        by_cases hz : facilities = []
        · rw [if_pos hz] at hp
          simp at hp
        · rw [if_neg hz] at hp
          rcases hW : writeDocsToFile db.fsWriteOk
              (snapshotPath logdir p._id) facilities with ⟨w0, t2⟩
          rw [hW] at hp
          cases w0 with
          | error err =>
              simp at hp
              rw [← hp.2]
              simp
          | ok written =>
              simp at hp
              rcases hR : removeContact db dryrun p written with ⟨rr, m0, t3⟩
              rw [hR] at hp
              cases rr with
              | ok pp => simp at hp
              | error err =>
                  simp at hp
                  rw [← hp.2]
                  simp

/-- C4 witness: against the store whose lookup fails for P2, running the
queue P1, P2, P3 stops at P2 with the raised error, P2's failure log, and
no P3 event. -/
theorem cleanContactPersons_failFast_witness :
    cleanContactPersons failingDb false "log" ([pP1] ++ pP2 :: [pP3]) =
      (.error "boom",
       ([pP1].map
          (fun q => (cleanContactPerson failingDb false "log" q).2)).flatten
         ++ (cleanContactPerson failingDb false "log" pP2).2) ∧
    Event.log ("Error when removing contact " ++ pP2._id) ∈
      (cleanContactPerson failingDb false "log" pP2).2 :=
  cleanContactPersons_failFast failingDb false "log" [pP1] pP2 [pP3] "boom"
    ((cleanContactPerson failingDb false "log" pP2).2)
    (by
      intro q hq
      rcases List.mem_cons.mp hq with h1 | h1
      · subst h1; exact ⟨_, _, rfl⟩
      · simp at h1)
    rfl

/-- C2: in the cascade of one subject, every store bulk-write event is
strictly preceded in the trace by the audit-file write of that subject's
snapshot path carrying the full pre-mutation facility list (the
bulk-written payload is exactly that list with the contact references
stripped): no store mutation for a subject ever precedes the subject's
snapshot. -/
theorem snapshot_precedes_bulkWrite (db : Db) (dryrun : Bool)
    (logdir : String) (person : Doc) (i : Nat) (ds : List Doc)
    (h : (cleanContactPerson db dryrun logdir person).2[i]? =
        some (.bulkWrite ds)) :
    ∃ j facs, j < i ∧
      (cleanContactPerson db dryrun logdir person).2[j]? =
        some (.fileWrite (snapshotPath logdir person._id) facs) ∧
      ds = stripContact facs := by
  cases hq : db.facilitiesByContact person._id with
  | error err =>
      rw [cleanContactPerson, isContactFor, hq] at h
      simp at h
      have hmem := List.getElem?_mem h
      simp at hmem
  | ok rows =>
      cases rows with
      | nil =>
          rw [cleanContactPerson, isContactFor, hq] at h
          simp [getDocsFromRows] at h
          have hmem := List.getElem?_mem h
          simp at hmem
      | cons r rs =>
          have hlen : (getDocsFromRows (r :: rs)).length = rs.length + 1 := by
            simp [getDocsFromRows]
          rw [cleanContactPerson, isContactFor, hq] at h ⊢
          by_cases hfs : db.fsWriteOk (snapshotPath logdir person._id)
          · cases dryrun with
            | true =>
                simp [writeDocsToFile, hfs, hlen, removeContact] at h
                have hmem := List.getElem?_mem h
                simp at hmem
            | false =>
                cases hbd : db.bulkDocs
                    (stripContact (getDocsFromRows (r :: rs))) with
                | ok res =>
                    simp [writeDocsToFile, hfs, hlen, removeContact, hbd] at h
                    rcases i with _|_|_|_|_|_|i
                    · simp at h
                    · simp at h
                    · simp at h
                    · simp at h
                    · simp at h
                      refine ⟨2, getDocsFromRows (r :: rs), by omega, ?_, h.symm⟩
                      simp [writeDocsToFile, hfs, hlen, removeContact, hbd]
                    · simp at h
                    · simp at h
                | error err =>
                    simp [writeDocsToFile, hfs, hlen, removeContact, hbd] at h
                    rcases i with _|_|_|_|_|_|_|i
                    · simp at h
                    · simp at h
                    · simp at h
                    · simp at h
                    · simp at h
                      refine ⟨2, getDocsFromRows (r :: rs), by omega, ?_, h.symm⟩
                      simp [writeDocsToFile, hfs, hlen, removeContact, hbd]
                    · simp at h
                    · simp at h
                    · simp at h
          · simp [writeDocsToFile, hfs, hlen] at h
            have hmem := List.getElem?_mem h
            simp at hmem

/-- C2 witness: in the concrete P1 cascade the bulk-write sits at trace
index 4, and a file write of P1's snapshot precedes it. -/
theorem snapshot_precedes_bulkWrite_witness :
    ∃ j facs, j < 4 ∧
      (cleanContactPerson sampleDb false "log" pP1).2[j]? =
        some (.fileWrite (snapshotPath "log" pP1._id) facs) ∧
      stripContact [fF1, fF2] = stripContact facs :=
  snapshot_precedes_bulkWrite sampleDb false "log" pP1 4
    (stripContact [fF1, fF2]) rfl
